import Mathlib

/-!
Verification development for the expectiminimax domino player
(`expectiminimax_solo.py`).  The Python program is shallowly embedded:
tiles, game states, the move generator, the transition function, the
chance model and the search engine are translated as executable Lean
definitions, and the spec's testable properties are settled as theorems
about those definitions.

Numeric conventions: Python ints are `Int`, Python floats are modelled
as exact rationals `ℚ` (the program only ever divides and multiplies
small integers, so every float it produces is an exact dyadic/decimal
rational; we prove exact equalities instead of tolerance statements).
Player seats are `ℕ` taken modulo 4.
-/

/-- A domino tile: `valor` is the pip pair, `position` the orientation
marker (-1 unplaced, 0/1 once played).  Mirrors class `Pedra`. -/
structure Pedra where
  valor : Int × Int
  position : Int
deriving DecidableEq

/-- Python `Pedra.__eq__`: unordered comparison of the pip pairs
(the orientation marker is ignored). -/
def pedraEq (a b : Pedra) : Bool :=
  decide ((a.valor.1 = b.valor.1 ∧ a.valor.2 = b.valor.2) ∨
    (a.valor.1 = b.valor.2 ∧ a.valor.2 = b.valor.1))

/-- `Pedra.igual(self, p)`: does `self` match the board-end tile `p`?
Translated clause by clause from the source, including the repeated
third and fourth disjunct of the `position == -1` case (the source never
tests `self.valor[0] == p.valor[1]` there). -/
def igual (self p : Pedra) : Bool :=
  decide (
    (p.position = -1 ∧
      (self.valor.1 = p.valor.1 ∨ self.valor.2 = p.valor.2 ∨
       self.valor.2 = p.valor.1 ∨ self.valor.2 = p.valor.1)) ∨
    (p.position = 0 ∧ (self.valor.2 = p.valor.1 ∨ self.valor.1 = p.valor.1)) ∨
    (p.position = 1 ∧ (self.valor.2 = p.valor.2 ∨ self.valor.1 = p.valor.2)))

/-- `Pedra.getValor`: the pip sum of a tile. -/
def getValor (p : Pedra) : Int :=
  p.valor.1 + p.valor.2

/-- The pass sentinel `Pedra(-1, -1, -1)`. -/
def passPedra : Pedra :=
  ⟨(-1, -1), -1⟩

/-- A move is a pair (tile, end selector), as in the source's
`(pedra, ponta)` tuples: end selector 0 = end 1, 1 = end 2,
-1 = empty board / pass. -/
abbrev Move := Pedra × Int

/-- The `GameState` namedtuple. -/
structure GameState where
  to_move : ℕ
  pedras : List Pedra
  pedras_restantes : List Pedra
  ponta1 : Option Pedra
  ponta2 : Option Pedra
  moves : List Move
  utility : Int
deriving DecidableEq

/-- `p.igual(ponta)` where `ponta` may be Python `None`.  A `none` end
would raise an `AttributeError` in Python; it is unreachable because the
code only consults the ends after checking `ponta1 is not None`, and the
two ends are always set together.  We return `false` for it. -/
def igualO (p : Pedra) : Option Pedra → Bool
  | some q => igual p q
  | none => false

/-- One iteration step of the move-generation loop in `Domino.moves`:
the accumulator carries the move list built so far and the counter `i`
of end-matching appends. -/
def movesStep (ponta1 ponta2 : Option Pedra) (acc : List Move × ℕ) (pedra : Pedra) :
    List Move × ℕ :=
  match ponta1 with
  | some p1 =>
      if igual pedra p1 then (acc.1 ++ [(pedra, 0)], acc.2 + 1)
      else
        match ponta2 with
        | some p2 => if igual pedra p2 then (acc.1 ++ [(pedra, 1)], acc.2 + 1) else acc
        | none => acc
  | none => (acc.1 ++ [(pedra, -1)], acc.2)

/-- `Domino.moves(to_move, pedras, pedras_restantes, ponta1, ponta2, player)`:
iterate over the mover's relevant pool; with ends set, append an end-1
move if the tile matches end 1, `elif` an end-2 move; with ends unset,
append a free move (selector -1, not counted by `i`); finally append the
pass sentinel iff the counter `i` stayed 0. -/
def movesD (to_move : ℕ) (pedras pedras_restantes : List Pedra)
    (ponta1 ponta2 : Option Pedra) (player : ℕ) : List Move :=
  let rel := if to_move = player then pedras else pedras_restantes
  let r := rel.foldl (movesStep ponta1 ponta2) ([], 0)
  if r.2 = 0 then r.1 ++ [(passPedra, -1)] else r.1

/-- `Domino.compute_utility`.  The blocked-pass branch sorts the caller's
pool in place in Python (`pedras_restantes.sort`); that side effect is
modelled separately (`resultInputAfter`); here only the returned value is
computed, summing the pip values of the `min(total, len)` smallest-pip
unseen tiles over the sorted order. -/
def compute_utility (to_move : ℕ) (pedras pedras_restantes : List Pedra)
    (ponta1 ponta2 : Option Pedra) (move : Move) (player : ℕ) : Int :=
  if move.1.valor.1 = -1 ∧ ponta1.isSome then
    if pedras_restantes.any (fun p => igualO p ponta1 || igualO p ponta2) then 0
    else if pedras.any (fun p => igualO p ponta1 || igualO p ponta2) then 0
    else
      let total := pedras.length
      let soma := (pedras.map getValor).sum
      let sorted := pedras_restantes.mergeSort (fun a b => decide (getValor a ≤ getValor b))
      let soma_res := ((sorted.take (min total pedras_restantes.length)).map getValor).sum
      if soma < soma_res then (if to_move ≠ player then -1 else 4)
      else (if to_move ≠ player then -1 else 4)
  else if move.1.valor.1 ≠ -1 then
    if to_move = player then (if pedras.length = 1 then 4 else 0)
    else (if pedras_restantes.length = 3 then -1 else 0)
  else -1

/-- Python `list.remove`: drop the first element `__eq__`-equal to `x`.
Python raises `ValueError` when no element matches; theorems about
removal therefore carry a membership hypothesis, and the function is the
identity in that unreachable case. -/
def removeFirst : List Pedra → Pedra → List Pedra
  | [], _ => []
  | h :: t, x => if pedraEq h x then t else h :: removeFirst t x

/-- `Domino.result(state, move, player)`: the successor state.  The
in-place `position` writes of the source act on tile objects that the
*successor* references through its `ponta1`/`ponta2` fields, so here they
appear as the `position` values of the newly built end tiles; their
effect on the *input* state is modelled by `resultInputAfter`.  After the
first placement `ponta1` and `ponta2` are the same Python object, so the
source's `state.ponta1.position = 1` write is visible through `ponta2`;
in program-reachable states value equality of the two ends coincides
with object identity, which is how the aliasing is rendered below. -/
def result (st : GameState) (move : Move) (player : ℕ) : GameState :=
  let utility := compute_utility st.to_move st.pedras st.pedras_restantes
    st.ponta1 st.ponta2 move player
  let to_move := (st.to_move + 1) % 4
  let pedras :=
    if move.1.valor.1 ≠ -1 ∧ st.to_move = player then removeFirst st.pedras move.1
    else st.pedras
  let pedras_restantes :=
    if move.1.valor.1 ≠ -1 ∧ st.to_move ≠ player then removeFirst st.pedras_restantes move.1
    else st.pedras_restantes
  let pontas : Option Pedra × Option Pedra :=
    if move.1.valor.1 ≠ -1 then
      match st.ponta1 with
      | some p1 =>
          if move.2 = 0 then
            let placed :=
              if move.1.valor.1 = p1.valor.1 ∨ move.1.valor.1 = p1.valor.2 then
                { move.1 with position := 1 }
              else if move.1.valor.2 = p1.valor.1 ∨ move.1.valor.2 = p1.valor.2 then
                { move.1 with position := 0 }
              else move.1
            let p1upd :=
              if (move.1.valor.1 = p1.valor.1 ∨ move.1.valor.1 = p1.valor.2 ∨
                  move.1.valor.2 = p1.valor.1 ∨ move.1.valor.2 = p1.valor.2) ∧
                  p1.position = -1 then
                { p1 with position := 1 }
              else p1
            (some placed, if st.ponta2 = some p1 then some p1upd else st.ponta2)
          else if move.2 = 1 then
            match st.ponta2 with
            | some p2 =>
                let placed :=
                  if move.1.valor.1 = p2.valor.1 ∨ move.1.valor.1 = p2.valor.2 then
                    { move.1 with position := 1 }
                  else if move.1.valor.2 = p2.valor.1 ∨ move.1.valor.2 = p2.valor.2 then
                    { move.1 with position := 0 }
                  else move.1
                (st.ponta1, some placed)
            | none => (st.ponta1, st.ponta2)
          else (st.ponta1, st.ponta2)
      | none =>
          let placed := { move.1 with position := -1 }
          (some placed, some placed)
    else (st.ponta1, st.ponta2)
  { to_move := to_move
    pedras := pedras
    pedras_restantes := pedras_restantes
    ponta1 := pontas.1
    ponta2 := pontas.2
    moves := movesD to_move pedras pedras_restantes pontas.1 pontas.2 player
    utility := utility }

/-- In-place `position := pos` write on the tile object `t`, seen from a
value-level reference `x`: pedra objects are aliased through `__eq__`-equal
values (pip pairs are unique in program-reachable states, so value
equality of the pip pair is object identity there). -/
def touch (t : Pedra) (pos : Int) (x : Pedra) : Pedra :=
  if pedraEq x t then { x with position := pos } else x

/-- The *input* state as it stands after `Domino.result(state, move,
player)` returns: `result` writes `move[0].position` (and possibly
`state.ponta1.position`) in place, and `compute_utility` sorts
`state.pedras_restantes` in place in the blocked-pass branch, so the
caller's state is visibly changed.  The namedtuple fields themselves are
never reassigned; only the tile objects they reference (shared by the
`pedras`/`pedras_restantes`/`moves` sequences) and the pool list's order
change. -/
def resultInputAfter (st : GameState) (move : Move) (player : ℕ) : GameState :=
  if move.1.valor.1 ≠ -1 then
    match st.ponta1 with
    | some p1 =>
        if move.2 = 0 then
          let posOpt : Option Int :=
            if move.1.valor.1 = p1.valor.1 ∨ move.1.valor.1 = p1.valor.2 then some 1
            else if move.1.valor.2 = p1.valor.1 ∨ move.1.valor.2 = p1.valor.2 then some 0
            else none
          match posOpt with
          | none => st
          | some ps =>
              let p1upd := if p1.position = -1 then { p1 with position := 1 } else p1
              { st with
                pedras := st.pedras.map (touch move.1 ps)
                pedras_restantes := st.pedras_restantes.map (touch move.1 ps)
                moves := st.moves.map (fun m => (touch move.1 ps m.1, m.2))
                ponta1 := some p1upd
                ponta2 := if st.ponta2 = some p1 then some p1upd else st.ponta2 }
        else if move.2 = 1 then
          match st.ponta2 with
          | some p2 =>
              let posOpt : Option Int :=
                if move.1.valor.1 = p2.valor.1 ∨ move.1.valor.1 = p2.valor.2 then some 1
                else if move.1.valor.2 = p2.valor.1 ∨ move.1.valor.2 = p2.valor.2 then some 0
                else none
              match posOpt with
              | none => st
              | some ps =>
                  { st with
                    pedras := st.pedras.map (touch move.1 ps)
                    pedras_restantes := st.pedras_restantes.map (touch move.1 ps)
                    moves := st.moves.map (fun m => (touch move.1 ps m.1, m.2)) }
          | none => st
        else st
    | none =>
        { st with
          pedras := st.pedras.map (touch move.1 (-1))
          pedras_restantes := st.pedras_restantes.map (touch move.1 (-1))
          moves := st.moves.map (fun m => (touch move.1 (-1) m.1, m.2)) }
  else
    if st.ponta1.isSome ∧
        ¬(st.pedras_restantes.any (fun p => igualO p st.ponta1 || igualO p st.ponta2) ||
          st.pedras.any (fun p => igualO p st.ponta1 || igualO p st.ponta2)) then
      { st with
        pedras_restantes :=
          st.pedras_restantes.mergeSort (fun a b => decide (getValor a ≤ getValor b)) }
    else st

/-- A chance event tuple `(tag, moves, n_moves, n)` as built by
`Domino.chances`: tag 1/2 = matches end 1/2, -1 = no match, 0 = the
mover's own deterministic turn. -/
structure Chance where
  tag : Int
  mvs : List Move
  n_moves : ℕ
  n : ℕ
deriving DecidableEq

/-- `Domino.chances(state)`: partition the cached move list by matched
end when `to_move != 0` (the searching player is hard-coded as seat 0),
always appending the no-match category; otherwise a single deterministic
event over the whole move list. -/
def chances (s : GameState) : List Chance :=
  let n_moves := s.moves.length
  if s.to_move ≠ 0 then
    let n := s.pedras_restantes.length
    let p1 : Chance := ⟨1, s.moves.filter (fun m => m.2 == 0), n_moves, n⟩
    let p2 : Chance := ⟨2, s.moves.filter (fun m => m.2 == 1), n_moves, n⟩
    (if p1.mvs.length > 0 then [p1] else []) ++
    (if p2.mvs.length > 0 then [p2] else []) ++
    [⟨-1, [(passPedra, -1)], n_moves, n⟩]
  else
    [⟨0, s.moves, n_moves, s.pedras.length⟩]

/-- `Domino.probability(chance)`.  Python divides floats; with an empty
pool it would raise `ZeroDivisionError`, here `ℚ` division by zero gives
0 and the probability theorems carry a nonempty-pool hypothesis. -/
def probability (c : Chance) : ℚ :=
  if c.tag = 1 ∨ c.tag = 2 then (c.mvs.length : ℚ) / (c.n : ℚ)
  else if c.tag = -1 then 1 - (c.n_moves : ℚ) / (c.n : ℚ)
  else 1

/-- `Domino.outcome(state, chance)`: same state with the cached move
list replaced by the event's narrowed list. -/
def outcome (s : GameState) (c : Chance) : GameState :=
  { s with moves := c.mvs }

/-- `Domino.terminal_test(state)`. -/
def terminal_test (s : GameState) : Bool :=
  s.utility != 0

/-- `Domino.buchas(pedras)`: doubles penalty. -/
def buchas (pedras : List Pedra) : Int :=
  pedras.foldl
    (fun res p =>
      if p.valor.1 = p.valor.2 then
        (if p.valor.1 ≠ 0 then res + p.valor.1 else res + 1)
      else res) 0

/-- `Domino.soma_pedras_max(state)`: pip sum over the hand. -/
def soma_pedras_max (pedras : List Pedra) : Int :=
  (pedras.map getValor).sum

/-- `Domino.checa_diversidade_max(state)`: number of pip values 0..6
present in the hand. -/
def checa_diversidade_max (pedras : List Pedra) : ℕ :=
  ((List.range 7).filter
    (fun v => pedras.any (fun p => decide (p.valor.1 = (v : Int) ∨ p.valor.2 = (v : Int))))).length

/-- `Domino.eval(state, player)`, the dispatcher the engine calls: seats
0, 1, 2 return their weighted feature combinations; any other seat falls
off the `if/elif` chain and Python silently returns `None`, rendered
`none`. -/
def evalD (s : GameState) (player : ℕ) : Option ℚ :=
  let n : ℚ := s.pedras.length
  let m : ℚ := (s.pedras_restantes.length : ℚ) / 3
  let buch : ℚ := buchas s.pedras
  let delta : ℚ := m - n
  let movimentos := movesD player s.pedras s.pedras_restantes s.ponta1 s.ponta2 player
  let soma_pedras : ℚ := soma_pedras_max s.pedras
  let diversidade : ℚ := checa_diversidade_max s.pedras
  if player = 0 then
    some (-(9/10) * buch - (2/10) * n + (7/10) * delta - (4/10) * soma_pedras)
  else if player = 1 then
    some ((5/10) * (movimentos.length : ℚ) + (6/10) * diversidade)
  else if player = 2 then
    some (-(9/10) * buch - (2/10) * n + (7/10) * delta + (5/10) * (movimentos.length : ℚ)
      - (4/10) * soma_pedras + (6/10) * diversidade)
  else none

/-- The heuristic value the engine receives.  The search is never run
for a seat outside 0..2 (the driver's fourth agent is the random
player), so the `None` case is unreachable there; 0 stands in for it. -/
def pyEval (s : GameState) (player : ℕ) : ℚ :=
  (evalD s player).getD 0

/-- The depth policy of `expectiminimax`, chosen from the searching
player's current hand size (lines 96-102 of the source). -/
def depthLimit (n : ℕ) : ℕ :=
  if n = 7 ∨ n = 6 then 7
  else if n = 5 ∨ n = 4 then 5
  else 9

/-- Python `v = -infinity; for a in l: v = max(v, f a); return v`.  The
float `-infinity` start value is modelled by `none`; every move list the
engine folds over is nonempty (the generator always appends at least a
pass and every chance category carries a nonempty list), so the start
value is always replaced; the unreachable empty fold is sent to 0. -/
def foldMaxQ (f : Move → ℚ) (l : List Move) : ℚ :=
  (l.foldl (fun v a => some (match v with | none => f a | some q => max q (f a))) none).getD 0

/-- Python `v = infinity; for a in l: v = min(v, f a); return v`, with
the same conventions as `foldMaxQ`. -/
def foldMinQ (f : Move → ℚ) (l : List Move) : ℚ :=
  (l.foldl (fun v a => some (match v with | none => f a | some q => min q (f a))) none).getD 0

mutual

/-- `max_value(state, depth)` inside `expectiminimax`, for depth limit
`d` and searching player `player`. -/
def max_value (d player : ℕ) (s : GameState) (depth : ℕ) : ℚ :=
  if h : d ≤ depth then pyEval s player
  else foldMaxQ (fun acao => chance_node d player s acao depth) s.moves
termination_by 2 * (d - depth) + 1
decreasing_by omega

/-- `min_value(state, depth)` inside `expectiminimax`. -/
def min_value (d player : ℕ) (s : GameState) (depth : ℕ) : ℚ :=
  if h : d ≤ depth then pyEval s player
  else foldMinQ (fun acao => chance_node d player s acao depth) s.moves
termination_by 2 * (d - depth) + 1
decreasing_by omega

/-- `chance_node(state, action, depth)` inside `expectiminimax`: apply
the move, short-circuit on terminal or depth cut (the cut evaluates the
*parent* state, as the source does), otherwise fold over the chance
events; the loop variable `res_state` is rebound to each event's outcome
state, exactly as in the source. -/
def chance_node (d player : ℕ) (s : GameState) (action : Move) (depth : ℕ) : ℚ :=
  let res := result s action player
  if terminal_test res then (res.utility : ℚ)
  else if h : d ≤ depth then pyEval s player
  else
    let cs := chances res
    let num := cs.length
    (cs.foldl
      (fun (acc : GameState × ℚ) chance =>
        let rs := outcome acc.1 chance
        let util :=
          if rs.to_move = player then max_value d player rs (depth + 1)
          else min_value d player rs (depth + 1)
        (rs, acc.2 + util * probability chance)) (res, 0)).2 / (num : ℚ)
termination_by 2 * (d - depth)
decreasing_by all_goals omega

end

/-- Modelled from the spec: `argmax` comes from the external `utils`
module (not part of this repository's single source file); the spec
records its contract as "return the move maximizing that value, ties
broken by encounter order (first-seen wins)", i.e. Python
`max(seq, key=key)`.  `none` on an empty sequence stands for the
`ValueError` Python `max` raises there. -/
def argmaxKey (key : Move → ℚ) : List Move → Option Move
  | [] => none
  | a :: l => some (l.foldl (fun best x => if key x > key best then x else best) a)

/-- The body of `expectiminimax(game, state)`: the searching player is
the state's mover, the depth limit comes from the hand size, and the
root action maximizes `chance_node(state, a, 1)`. -/
def expectiminimaxD (s : GameState) : Option Move :=
  let player := s.to_move
  let d := depthLimit s.pedras.length
  argmaxKey (fun a => chance_node d player s a 1) s.moves

/-- `Domino.cria_domino()`: the 28 tiles (i, j), 0 ≤ j ≤ i ≤ 6, all
unplaced. -/
def cria_domino : List Pedra :=
  (List.range 7).flatMap (fun i =>
    ((List.range 7).filter (fun j => decide (j ≤ i))).map
      (fun j => Pedra.mk ((i : Int), (j : Int)) (-1)))

/-- States reachable by the search from an initial deal: 7 tiles in the
searching player's hand, 21 in the unseen pool, empty board.  A step
either applies a legal move through the Transition Function (a genuine
move must name a tile of the mover's relevant pool, which is what makes
Python's `list.remove` succeed) while the ghost counter of played tiles
advances on genuine moves, or adopts a chance event's narrowed move
list. -/
inductive Reach (player : ℕ) : GameState → ℕ → Prop where
  | init : ∀ s : GameState, s.pedras.length = 7 → s.pedras_restantes.length = 21 →
      s.ponta1 = none → s.ponta2 = none → Reach player s 0
  | move : ∀ (s : GameState) (k : ℕ) (m : Move), Reach player s k → m ∈ s.moves →
      (m.1.valor.1 ≠ -1 →
        if s.to_move = player then ∃ t ∈ s.pedras, pedraEq t m.1
        else ∃ t ∈ s.pedras_restantes, pedraEq t m.1) →
      Reach player (result s m player) (k + (if m.1.valor.1 = -1 then 0 else 1))
  | chanceStep : ∀ (s : GameState) (k : ℕ) (c : Chance), Reach player s k →
      c ∈ chances s → Reach player (outcome s c) k

/-- Per-tile sequential-check characterization of the move generator on
a board with both ends set, used to state the amended form of the
double-match behavior: each tile is tested against end 1 first and
against end 2 only when the end-1 test fails (the source's `elif`), and
the pass sentinel is appended exactly when no tile matched. -/
def movesSequentialCheck (rel : List Pedra) (p1 p2 : Pedra) : List Move :=
  let core := rel.filterMap (fun t =>
    if igual t p1 then some ((t, 0) : Move)
    else if igual t p2 then some ((t, 1) : Move) else none)
  if core.length = 0 then core ++ [(passPedra, -1)] else core

/-- C1 scenario: board ends (3,4)|(3,4) (one tile played so far), the
mover holds (3,5) and plays it on end 1. -/
def stMut : GameState :=
  { to_move := 0, pedras := [⟨(3,5),-1⟩], pedras_restantes := [⟨(0,2),-1⟩],
    ponta1 := some ⟨(3,4),-1⟩, ponta2 := some ⟨(3,4),-1⟩,
    moves := [(⟨(3,5),-1⟩, 0)], utility := 0 }

/-- C2 scenario: mover passes on a nonempty board while the unseen pool
still holds a tile matching an end. -/
def stPassMatch : GameState :=
  { to_move := 1, pedras := [⟨(0,1),-1⟩], pedras_restantes := [⟨(5,2),-1⟩],
    ponta1 := some ⟨(5,5),-1⟩, ponta2 := some ⟨(5,5),-1⟩,
    moves := [(passPedra, -1)], utility := 0 }

/-- C2 witness scenario: a blocked pass (no tile anywhere matches the
(6,6) ends). -/
def stPassBlocked : GameState :=
  { to_move := 1, pedras := [⟨(0,1),-1⟩], pedras_restantes := [⟨(0,2),-1⟩],
    ponta1 := some ⟨(6,6),-1⟩, ponta2 := some ⟨(6,6),-1⟩,
    moves := [(passPedra, -1)], utility := 0 }

/-- C3 scenario: an opponent placement from a four-tile unseen pool
(three tiles remain after the move). -/
def stPool4 : GameState :=
  { to_move := 1, pedras := [⟨(0,1),-1⟩],
    pedras_restantes := [⟨(3,5),-1⟩, ⟨(0,2),-1⟩, ⟨(1,2),-1⟩, ⟨(2,2),-1⟩],
    ponta1 := some ⟨(3,3),-1⟩, ponta2 := some ⟨(3,3),-1⟩,
    moves := [(⟨(3,5),-1⟩, 0), (passPedra, -1)], utility := 0 }

/-- C3 witness scenario: the searching player plays the last tile of a
one-tile hand. -/
def stHand1 : GameState :=
  { to_move := 0, pedras := [⟨(3,5),-1⟩], pedras_restantes := [⟨(0,2),-1⟩, ⟨(1,2),-1⟩],
    ponta1 := some ⟨(3,3),-1⟩, ponta2 := some ⟨(3,3),-1⟩,
    moves := [(⟨(3,5),-1⟩, 0)], utility := 0 }

/-- C4 scenario: the searching player sits at seat 2 and is the mover;
one cached move matches end 1. -/
def stSeat2 : GameState :=
  { to_move := 2, pedras := [⟨(0,1),-1⟩], pedras_restantes := [⟨(3,5),-1⟩, ⟨(0,2),-1⟩],
    ponta1 := some ⟨(3,3),-1⟩, ponta2 := some ⟨(3,3),-1⟩,
    moves := [(⟨(3,5),-1⟩, 0)], utility := 0 }

/-- C5 witness scenario: the searching player (seat 0) opens with (0,1)
from a two-tile hand on an empty board. -/
def stOpen : GameState :=
  { to_move := 0, pedras := [⟨(0,1),-1⟩, ⟨(2,3),-1⟩], pedras_restantes := [],
    ponta1 := none, ponta2 := none,
    moves := [(⟨(0,1),-1⟩, -1), (⟨(2,3),-1⟩, -1), (passPedra, -1)], utility := 0 }

/-- C6 scenario: an opponent node whose cached move list is only the
pass sentinel (no tile matches the (6,6) ends). -/
def stNoMatch : GameState :=
  { to_move := 1, pedras := [⟨(0,1),-1⟩], pedras_restantes := [⟨(0,2),-1⟩, ⟨(1,2),-1⟩],
    ponta1 := some ⟨(6,6),-1⟩, ponta2 := some ⟨(6,6),-1⟩,
    moves := [(passPedra, -1)], utility := 0 }

/-- C6 witness scenario: an opponent node where one cached move targets
each end and the pool holds three tiles. -/
def stBothEnds : GameState :=
  { to_move := 1, pedras := [⟨(0,1),-1⟩],
    pedras_restantes := [⟨(3,5),-1⟩, ⟨(4,2),-1⟩, ⟨(1,2),-1⟩],
    ponta1 := some ⟨(3,4),0⟩, ponta2 := some ⟨(3,4),1⟩,
    moves := [(⟨(3,5),-1⟩, 0), (⟨(4,2),-1⟩, 1)], utility := 0 }

/-- C7 witness scenario: any state past the depth cut. -/
def stCut : GameState :=
  { to_move := 1, pedras := [⟨(0,1),-1⟩], pedras_restantes := [⟨(0,2),-1⟩],
    ponta1 := some ⟨(1,1),-1⟩, ponta2 := some ⟨(1,1),-1⟩,
    moves := [(passPedra, -1)], utility := 0 }

/-- C9 witness scenario: a concrete initial deal — the first 7 tiles of
`cria_domino` as the searching player's hand, the other 21 as the unseen
pool. -/
def stDeal : GameState :=
  { to_move := 0, pedras := cria_domino.take 7, pedras_restantes := cria_domino.drop 7,
    ponta1 := none, ponta2 := none,
    moves := movesD 0 (cria_domino.take 7) (cria_domino.drop 7) none none 0, utility := 0 }

/-- C10 scenario: a small state on which the heuristic is evaluated. -/
def stEval : GameState :=
  { to_move := 3, pedras := [⟨(3,5),-1⟩, ⟨(2,2),-1⟩], pedras_restantes := [⟨(0,2),-1⟩],
    ponta1 := some ⟨(3,3),-1⟩, ponta2 := some ⟨(3,3),-1⟩,
    moves := [(⟨(3,5),-1⟩, 0)], utility := 0 }

theorem touch_valor (t : Pedra) (pos : Int) (x : Pedra) :
    (touch t pos x).valor = x.valor := by
  unfold touch
  split <;> rfl

theorem map_touch_valor (l : List Pedra) (t : Pedra) (pos : Int) :
    (l.map (touch t pos)).map Pedra.valor = l.map Pedra.valor := by
  rw [List.map_map]
  apply List.map_congr_left
  intro x _
  exact touch_valor t pos x

theorem length_removeFirst (l : List Pedra) (x : Pedra)
    (h : ∃ t ∈ l, pedraEq t x) : (removeFirst l x).length + 1 = l.length := by
  induction l with
  | nil => simp at h
  | cons a t ih =>
      by_cases hax : pedraEq a x
      · simp [removeFirst, hax]
      · have ht : ∃ u ∈ t, pedraEq u x := by
          rcases h with ⟨u, hu, hux⟩
          rcases List.mem_cons.mp hu with rfl | h1
          · exact absurd hux hax
          · exact ⟨u, h1, hux⟩
        simp [removeFirst, hax, ← ih ht]

theorem result_to_move (st : GameState) (m : Move) (p : ℕ) :
    (result st m p).to_move = (st.to_move + 1) % 4 := rfl

theorem result_utility (st : GameState) (m : Move) (p : ℕ) :
    (result st m p).utility =
      compute_utility st.to_move st.pedras st.pedras_restantes st.ponta1 st.ponta2 m p := rfl

theorem result_pedras (st : GameState) (m : Move) (p : ℕ) :
    (result st m p).pedras =
      if m.1.valor.1 ≠ -1 ∧ st.to_move = p then removeFirst st.pedras m.1
      else st.pedras := rfl

theorem result_restantes (st : GameState) (m : Move) (p : ℕ) :
    (result st m p).pedras_restantes =
      if m.1.valor.1 ≠ -1 ∧ st.to_move ≠ p then removeFirst st.pedras_restantes m.1
      else st.pedras_restantes := rfl

theorem result_pontas_pass (st : GameState) (m : Move) (p : ℕ) (h : m.1.valor.1 = -1) :
    (result st m p).ponta1 = st.ponta1 ∧ (result st m p).ponta2 = st.ponta2 := by
  constructor <;> simp [result, h]

theorem outcome_outcome (s : GameState) (c c2 : Chance) :
    outcome (outcome s c) c2 = outcome s c2 := rfl

theorem outcome_to_move (s : GameState) (c : Chance) :
    (outcome s c).to_move = s.to_move := rfl

theorem movesStep_foldl (p1 p2 : Pedra) (l : List Pedra) (ms : List Move) (i : ℕ) :
    l.foldl (movesStep (some p1) (some p2)) (ms, i) =
      (ms ++ l.filterMap (fun t =>
          if igual t p1 then some ((t, 0) : Move)
          else if igual t p2 then some ((t, 1) : Move) else none),
        i + (l.filterMap (fun t =>
          if igual t p1 then some ((t, 0) : Move)
          else if igual t p2 then some ((t, 1) : Move) else none)).length) := by
  induction l generalizing ms i with
  | nil => simp
  | cons a l ih =>
      by_cases h1 : igual a p1
      · simp [movesStep, h1, ih, List.append_assoc]
        omega
      · by_cases h2 : igual a p2
        · simp [movesStep, h1, h2, ih, List.append_assoc]
          omega
        · simp [movesStep, h1, h2, ih]

theorem filter_end_lengths (l : List Move) (h : ∀ m ∈ l, m.2 = 0 ∨ m.2 = 1) :
    (l.filter (fun m => m.2 == 0)).length + (l.filter (fun m => m.2 == 1)).length = l.length := by
  induction l with
  | nil => simp
  | cons a l ih =>
      have ha := h a (List.mem_cons_self a l)
      have hl : ∀ m ∈ l, m.2 = 0 ∨ m.2 = 1 := fun m hm => h m (List.mem_cons_of_mem a hm)
      have hx := ih hl
      rcases ha with h0 | h1
      · simp [List.filter_cons, h0]
        omega
      · simp [List.filter_cons, h1]
        omega

theorem chance_fold (d player depth : ℕ) (s : GameState) (cs : List Chance)
    (t : GameState) (acc : ℚ) (h : ∀ c, outcome t c = outcome s c) :
    (cs.foldl
      (fun (acc2 : GameState × ℚ) chance =>
        (outcome acc2.1 chance,
         acc2.2 + (if (outcome acc2.1 chance).to_move = player
            then max_value d player (outcome acc2.1 chance) (depth + 1)
            else min_value d player (outcome acc2.1 chance) (depth + 1)) * probability chance))
      (t, acc)).2 =
      acc + (cs.map (fun c =>
        probability c * (if (outcome s c).to_move = player
          then max_value d player (outcome s c) (depth + 1)
          else min_value d player (outcome s c) (depth + 1)))).sum := by
  induction cs generalizing t acc with
  | nil => simp
  | cons c cs ih =>
      simp only [List.foldl_cons, List.map_cons, List.sum_cons]
      rw [ih (outcome t c) _ (fun c2 => by rw [outcome_outcome, h c2])]
      rw [h c]
      ring

/-- Claim C5 (confirmed): for every non-terminal child state expanded
below the depth limit, the chance-node value equals the sum over the
enumerated chance events of (event probability times the value of
recursing into the next max or min level, chosen by whether the next
mover is the searching player), divided by the number of distinct chance
categories returned — not by their summed probability mass.  The
source's rebinding of `res_state` inside the loop is harmless because
`outcome` only replaces the cached move list. -/
theorem chance_node_category_average (d player : ℕ) (s : GameState) (a : Move) (depth : ℕ)
    (hterm : terminal_test (result s a player) = false) (hdepth : depth < d) :
    chance_node d player s a depth =
      ((chances (result s a player)).map (fun c =>
        probability c *
          (if (outcome (result s a player) c).to_move = player
           then max_value d player (outcome (result s a player) c) (depth + 1)
           else min_value d player (outcome (result s a player) c) (depth + 1)))).sum
      / ((chances (result s a player)).length : ℚ) := by
  rw [chance_node]
  simp only [hterm, Bool.false_eq_true, if_false, dif_neg (Nat.not_le.mpr hdepth)]
  rw [chance_fold d player depth (result s a player) (chances (result s a player))
    (result s a player) 0 (fun c => rfl)]
  rw [zero_add]

/-- Claim C8 (amended): with both ends set, the Move Generator checks
each tile against end 1 first and against end 2 only when the end-1
check fails (an `elif`, not independent per-end checks), so a tile
matching both ends yields exactly one legal move, recorded for end 1;
the pass sentinel is appended exactly when no tile matched either end. -/
theorem moves_sequential (to_move player : ℕ) (pedras restantes : List Pedra) (p1 p2 : Pedra) :
    movesD to_move pedras restantes (some p1) (some p2) player =
      movesSequentialCheck (if to_move = player then pedras else restantes) p1 p2 := by
  simp only [movesD, movesSequentialCheck]
  rw [movesStep_foldl]
  simp

/-- Claim C2 (amended): a pass applied while the board is nonempty
leaves the ends, hand and unseen pool of the successor equal to the
input's and advances the turn to the next seat, but the utility marker
is not always -1: it is 0 while any tile of the hand or the unseen pool
still matches an end, and only in the blocked position it becomes -1
for a non-searching mover (and +4 when the searching player is the
mover). -/
theorem pass_nonempty_board_effects (st : GameState) (m : Move) (player : ℕ)
    (hpass : m.1.valor.1 = -1) (hboard : st.ponta1.isSome) :
    (result st m player).pedras = st.pedras ∧
    (result st m player).pedras_restantes = st.pedras_restantes ∧
    (result st m player).ponta1 = st.ponta1 ∧
    (result st m player).ponta2 = st.ponta2 ∧
    (result st m player).to_move = (st.to_move + 1) % 4 ∧
    (result st m player).utility =
      (if st.pedras_restantes.any (fun p => igualO p st.ponta1 || igualO p st.ponta2) ∨
          st.pedras.any (fun p => igualO p st.ponta1 || igualO p st.ponta2) then 0
       else if st.to_move = player then 4 else -1) := by
  refine ⟨?_, ?_, (result_pontas_pass st m player hpass).1,
    (result_pontas_pass st m player hpass).2, result_to_move st m player, ?_⟩
  · rw [result_pedras]
    simp [hpass]
  · rw [result_restantes]
    simp [hpass]
  · rw [result_utility]
    unfold compute_utility
    rw [if_pos ⟨hpass, hboard⟩]
    by_cases h1 : st.pedras_restantes.any (fun p => igualO p st.ponta1 || igualO p st.ponta2)
    · simp [h1]
    · by_cases h2 : st.pedras.any (fun p => igualO p st.ponta1 || igualO p st.ponta2)
      · simp [h1, h2]
      · simp only [h1, h2, Bool.false_eq_true, if_false, or_self, ite_self]
        by_cases hp : st.to_move = player <;> simp [hp]

/-- Claim C3 (amended): for a genuine placement of a tile present in
the mover's relevant pool, the utility marker is +4 exactly when the
searching player's own hand becomes empty after the move, and -1 exactly
when the opponents' unseen pool is down to two tiles after the move
(three before it, as the source tests the pre-removal length against 3),
and 0 otherwise. -/
theorem placement_utility_depletion (st : GameState) (m : Move) (player : ℕ)
    (hgen : m.1.valor.1 ≠ -1)
    (hmem : if st.to_move = player then ∃ t ∈ st.pedras, pedraEq t m.1
            else ∃ t ∈ st.pedras_restantes, pedraEq t m.1) :
    (result st m player).utility =
      if st.to_move = player then
        (if (result st m player).pedras.length = 0 then 4 else 0)
      else
        (if (result st m player).pedras_restantes.length = 2 then -1 else 0) := by
  rw [result_utility]
  unfold compute_utility
  rw [if_neg (by simp [hgen]), if_pos hgen]
  by_cases hp : st.to_move = player
  · rw [if_pos hp] at hmem
    have hlen := length_removeFirst st.pedras m.1 hmem
    rw [if_pos hp, if_pos hp, result_pedras,
      if_pos (And.intro hgen hp : m.1.valor.1 ≠ -1 ∧ st.to_move = player)]
    by_cases h1 : st.pedras.length = 1
    · rw [if_pos h1, if_pos (show (removeFirst st.pedras m.1).length = 0 by omega)]
    · rw [if_neg h1, if_neg (show ¬(removeFirst st.pedras m.1).length = 0 by omega)]
  · rw [if_neg hp] at hmem
    have hlen := length_removeFirst st.pedras_restantes m.1 hmem
    rw [if_neg hp, if_neg hp, result_restantes,
      if_pos (And.intro hgen hp : m.1.valor.1 ≠ -1 ∧ ¬st.to_move = player)]
    by_cases h1 : st.pedras_restantes.length = 3
    · rw [if_pos h1, if_pos (show (removeFirst st.pedras_restantes m.1).length = 2 by omega)]
    · rw [if_neg h1, if_neg (show ¬(removeFirst st.pedras_restantes m.1).length = 2 by omega)]

/-- Claim C9 (confirmed): starting from the initial deal (7 tiles in
the searching player's hand, 21 in the unseen pool, 0 played), every
reachable state satisfies hand + pool + played = 28: a genuine
Transition removes exactly one tile from the hand or the unseen pool
(counted as played), a pass removes none, and a chance outcome only
narrows the cached move list. -/
theorem reach_tile_conservation (player : ℕ) (s : GameState) (k : ℕ) (h : Reach player s k) :
    s.pedras.length + s.pedras_restantes.length + k = 28 := by
  induction h with
  | init s h7 h21 hp1 hp2 => rw [h7, h21]
  | chanceStep s k c hr hc ih => simpa [outcome] using ih
  | move s k m hr hmv hmem ih =>
      by_cases hg : m.1.valor.1 = -1
      · rw [result_pedras, result_restantes]
        simp only [hg, ne_eq, not_true_eq_false, false_and, if_false, if_pos]
        simp [hg]
        omega
      · have hmem2 := hmem hg
        by_cases hp : s.to_move = player
        · simp only [hp, if_true] at hmem2
          have hlen := length_removeFirst s.pedras m.1 hmem2
          rw [result_pedras, result_restantes, if_pos ⟨hg, hp⟩, if_neg (by simp [hp])]
          simp only [hg, if_false]
          omega
        · simp only [hp, if_false] at hmem2
          have hlen := length_removeFirst s.pedras_restantes m.1 hmem2
          rw [result_pedras, result_restantes, if_neg (by simp [hp]), if_pos ⟨hg, hp⟩]
          simp only [hg, if_false]
          omega

/-- Claim C1 (amended): the Transition Function never changes the
input state's turn owner, utility, the pip-pair sequence of its hand, or
the pip-pair multiset of its unseen pool — but it is not pure with
respect to the input: the in-place orientation writes and the blocked-
branch sort visibly mutate the tile objects and pool order the input
state references (see the counterexample `result_mutates_input_cex`). -/
theorem result_input_effects (st : GameState) (m : Move) (player : ℕ) :
    (resultInputAfter st m player).to_move = st.to_move ∧
    (resultInputAfter st m player).utility = st.utility ∧
    (resultInputAfter st m player).pedras.map Pedra.valor = st.pedras.map Pedra.valor ∧
    ((resultInputAfter st m player).pedras_restantes.map Pedra.valor).Perm
      (st.pedras_restantes.map Pedra.valor) := by
  refine ⟨?_, ?_, ?_, ?_⟩ <;>
    (simp only [resultInputAfter]; repeat' split) <;>
    (try dsimp only []) <;>
    first
      | rfl
      | exact List.Perm.refl _
      | exact map_touch_valor _ _ _
      | (simp only [map_touch_valor]; exact List.Perm.refl _)
      | exact ((List.mergeSort_perm _ _).map Pedra.valor)

theorem probability_tag1 (l : List Move) (nm n : ℕ) :
    probability ⟨1, l, nm, n⟩ = (l.length : ℚ) / (n : ℚ) := by
  simp [probability]

theorem probability_tag2 (l : List Move) (nm n : ℕ) :
    probability ⟨2, l, nm, n⟩ = (l.length : ℚ) / (n : ℚ) := by
  simp [probability]

theorem probability_passTag (l : List Move) (nm n : ℕ) :
    probability ⟨-1, l, nm, n⟩ = 1 - (nm : ℚ) / (n : ℚ) := by
  have h1 : ¬((-1 : Int) = 1 ∨ (-1 : Int) = 2) := by decide
  simp [probability, h1]

theorem chances_eq (s : GameState) (h : s.to_move ≠ 0) :
    chances s =
      (if 0 < (s.moves.filter (fun m => m.2 == 0)).length
       then [⟨1, s.moves.filter (fun m => m.2 == 0), s.moves.length, s.pedras_restantes.length⟩]
       else []) ++
      (if 0 < (s.moves.filter (fun m => m.2 == 1)).length
       then [⟨2, s.moves.filter (fun m => m.2 == 1), s.moves.length, s.pedras_restantes.length⟩]
       else []) ++
      [⟨-1, [(passPedra, -1)], s.moves.length, s.pedras_restantes.length⟩] := by
  simp only [chances, if_pos h]

/-- Claim C6 (amended): at an opponent node (mover other than seat 0)
whose cached move list contains only end-targeting moves (each entry's
selector is 0 or 1) and whose unseen pool is nonempty, the probabilities
of the returned categories sum to exactly 1, and the no-match category's
probability equals 1 minus the sum of the match-category probabilities.
When the cached list holds a pass or free-placement entry instead, the
no-match weight is short by (number of such entries)/(pool size) and the
total drops below 1 (see `chance_probabilities_short_cex`). -/
theorem chance_probability_normalization (s : GameState)
    (hmover : s.to_move ≠ 0) (hpool : 0 < s.pedras_restantes.length)
    (hends : ∀ m ∈ s.moves, m.2 = 0 ∨ m.2 = 1) :
    ((chances s).map probability).sum = 1 ∧
    (∀ c ∈ chances s, c.tag = -1 →
      probability c =
        1 - (((chances s).filter (fun c2 => c2.tag != -1)).map probability).sum) := by
  have hn : ((s.pedras_restantes.length : ℚ)) ≠ 0 := Nat.cast_ne_zero.mpr (by omega)
  have hcount := filter_end_lengths s.moves hends
  have hq : ((s.moves.filter (fun m => m.2 == 0)).length : ℚ) +
      ((s.moves.filter (fun m => m.2 == 1)).length : ℚ) = (s.moves.length : ℚ) := by
    push_cast [← hcount]
    ring
  rw [chances_eq s hmover]
  by_cases hm0 : 0 < (s.moves.filter (fun m => m.2 == 0)).length
  · by_cases hm1 : 0 < (s.moves.filter (fun m => m.2 == 1)).length
    · rw [if_pos hm0, if_pos hm1]
      constructor
      · simp only [List.cons_append, List.nil_append, List.map_cons, List.map_nil,
          List.sum_cons, List.sum_nil, probability_tag1, probability_tag2, probability_passTag]
        field_simp
        linarith [hq]
      · intro c hc htag
        simp only [List.cons_append, List.nil_append, List.mem_cons,
          List.not_mem_nil, or_false] at hc
        rcases hc with rfl | rfl | rfl
        · simp at htag
        · simp at htag
        · rw [probability_passTag]
          simp only [List.cons_append, List.nil_append, List.filter_cons]
          norm_num
          rw [probability_tag1, probability_tag2]
          field_simp
          linarith [hq]
    · rw [if_pos hm0, if_neg hm1]
      have h1 : ((s.moves.filter (fun m => m.2 == 1)).length : ℚ) = 0 := by
        norm_cast
        omega
      constructor
      · simp only [List.cons_append, List.nil_append, List.map_cons, List.map_nil,
          List.sum_cons, List.sum_nil, probability_tag1, probability_passTag]
        field_simp
        linarith [hq, h1]
      · intro c hc htag
        simp only [List.cons_append, List.nil_append, List.mem_cons,
          List.not_mem_nil, or_false] at hc
        rcases hc with rfl | rfl
        · simp at htag
        · rw [probability_passTag]
          simp only [List.cons_append, List.nil_append, List.filter_cons]
          norm_num
          rw [probability_tag1]
          field_simp
          linarith [hq, h1]
  · by_cases hm1 : 0 < (s.moves.filter (fun m => m.2 == 1)).length
    · rw [if_neg hm0, if_pos hm1]
      have h0 : ((s.moves.filter (fun m => m.2 == 0)).length : ℚ) = 0 := by
        norm_cast
        omega
      constructor
      · simp only [List.cons_append, List.nil_append, List.map_cons, List.map_nil,
          List.sum_cons, List.sum_nil, probability_tag2, probability_passTag]
        field_simp
        linarith [hq, h0]
      · intro c hc htag
        simp only [List.cons_append, List.nil_append, List.mem_cons,
          List.not_mem_nil, or_false] at hc
        rcases hc with rfl | rfl
        · simp at htag
        · rw [probability_passTag]
          simp only [List.cons_append, List.nil_append, List.filter_cons]
          norm_num
          rw [probability_tag2]
          field_simp
          linarith [hq, h0]
    · rw [if_neg hm0, if_neg hm1]
      have hz : (s.moves.length : ℚ) = 0 := by
        norm_cast
        omega
      constructor
      · simp only [List.nil_append, List.map_cons, List.map_nil, List.sum_cons,
          List.sum_nil, probability_passTag, hz]
        ring
      · intro c hc htag
        simp only [List.nil_append, List.mem_cons, List.not_mem_nil, or_false] at hc
        subst hc
        rw [probability_passTag]
        simp only [List.nil_append, List.filter_cons]
        norm_num [hz]

/-- Claim C7 (confirmed): the depth limit chosen by `expectiminimax`
from the searching player's current hand size n is 7 for n ∈ {6, 7},
5 for n ∈ {4, 5} and 9 otherwise — in particular hand size 7 searches to
depth 7 and hand size 3 to depth 9 — and at or beyond that limit both
the max and the min level return the Evaluation Heuristic value instead
of expanding further; the root search wires exactly this limit in. -/
theorem depth_policy_and_cutoff :
    (∀ n : ℕ, ((n = 6 ∨ n = 7) → depthLimit n = 7) ∧ ((n = 4 ∨ n = 5) → depthLimit n = 5) ∧
      (¬(n = 4 ∨ n = 5 ∨ n = 6 ∨ n = 7) → depthLimit n = 9)) ∧
    depthLimit 7 = 7 ∧ depthLimit 3 = 9 ∧
    (∀ (d player : ℕ) (s : GameState) (depth : ℕ), d ≤ depth →
      max_value d player s depth = pyEval s player ∧
      min_value d player s depth = pyEval s player) ∧
    (∀ s : GameState, expectiminimaxD s =
      argmaxKey (fun a => chance_node (depthLimit s.pedras.length) s.to_move s a 1) s.moves) := by
  refine ⟨?_, by decide, by decide, ?_, fun s => rfl⟩
  · intro n
    unfold depthLimit
    split_ifs with h1 h2 <;> refine ⟨fun h => ?_, fun h => ?_, fun h => ?_⟩ <;> omega
  · intro d player s depth h
    constructor
    · rw [max_value]
      simp [h]
    · rw [min_value]
      simp [h]

/-- Claim C10 (amended): the Evaluation Heuristic returns the
documented weighted feature combinations for searching-player seats 0,
1 and 2, but for seat 3 it does not surface any defined error: the
`if/elif` chain falls through and Python silently returns `None`
(modelled as `none`), the silently-defaulted undefined value the spec
warns about. -/
theorem eval_seat_profiles (s : GameState) :
    evalD s 0 = some (-(9/10) * (buchas s.pedras : ℚ) - (2/10) * (s.pedras.length : ℚ)
      + (7/10) * ((s.pedras_restantes.length : ℚ) / 3 - (s.pedras.length : ℚ))
      - (4/10) * (soma_pedras_max s.pedras : ℚ)) ∧
    evalD s 1 = some ((5/10) *
        ((movesD 1 s.pedras s.pedras_restantes s.ponta1 s.ponta2 1).length : ℚ)
      + (6/10) * (checa_diversidade_max s.pedras : ℚ)) ∧
    evalD s 2 = some (-(9/10) * (buchas s.pedras : ℚ) - (2/10) * (s.pedras.length : ℚ)
      + (7/10) * ((s.pedras_restantes.length : ℚ) / 3 - (s.pedras.length : ℚ))
      + (5/10) * ((movesD 2 s.pedras s.pedras_restantes s.ponta1 s.ponta2 2).length : ℚ)
      - (4/10) * (soma_pedras_max s.pedras : ℚ)
      + (6/10) * (checa_diversidade_max s.pedras : ℚ)) ∧
    evalD s 3 = none := by
  exact ⟨rfl, rfl, rfl, rfl⟩

/-- Claim C1 counterexample: placing (3,5) on end 1 of a board with
ends (3,4)|(3,4) mutates the caller's state in place — the placed
tile's orientation field inside the input's hand sequence changes — so
the input state is not structurally equal to itself before and after
the call, refuting the purity claim as stated. -/
theorem result_mutates_input_cex :
    resultInputAfter stMut ((⟨(3,5),-1⟩ : Pedra), 0) 0 ≠ stMut := by decide

/-- Claim C2 counterexample: a pass on a nonempty board whose unseen
pool still holds a matching tile yields utility marker 0, not the
claimed -1. -/
theorem pass_match_utility_zero_cex :
    stPassMatch.ponta1.isSome ∧ (result stPassMatch (passPedra, -1) 0).utility = 0 := by decide

/-- Claim C3 counterexample: an opponent placement that leaves the
unseen pool with exactly three tiles yields utility marker 0, where the
claim as stated requires -1. -/
theorem placement_pool_three_after_cex :
    (result stPool4 ((⟨(3,5),-1⟩ : Pedra), 0) 0).pedras_restantes.length = 3 ∧
    (result stPool4 ((⟨(3,5),-1⟩ : Pedra), 0) 0).utility = 0 := by decide

/-- Claim C4 (code bug evidence): in a state where the searching
(root) player occupies seat 2 and is the acting mover, the Chance Model
still returns two probability-weighted events instead of the single
certain event the spec requires, because the source tests
`state.to_move != 0` instead of comparing against the searching
player. -/
theorem chances_ignore_searching_seat :
    stSeat2.to_move = 2 ∧ (chances stSeat2).length = 2 := by decide

/-- Claim C8 counterexample: the tile (2,4) matches both ends (2,5)
and (4,6), yet the Move Generator records a single legal move (for end
1), not the two distinct per-end moves the claim describes. -/
theorem moves_double_match_single_cex :
    igual (⟨(2,4),-1⟩ : Pedra) (⟨(2,5),-1⟩ : Pedra) = true ∧
    igual (⟨(2,4),-1⟩ : Pedra) (⟨(4,6),-1⟩ : Pedra) = true ∧
    movesD 0 [⟨(2,4),-1⟩] [] (some ⟨(2,5),-1⟩) (some ⟨(4,6),-1⟩) 0 =
      [((⟨(2,4),-1⟩ : Pedra), 0)] := by decide

/-- Claim C6 counterexample: at an opponent node whose cached move
list is just the pass sentinel over a two-tile pool, the category
probabilities sum to 1/2, not 1. -/
theorem chance_probabilities_short_cex :
    stNoMatch.to_move ≠ 0 ∧
    ((chances stNoMatch).map probability).sum = 1/2 ∧
    ((chances stNoMatch).map probability).sum ≠ 1 := by
  refine ⟨by decide, ?_, ?_⟩ <;>
    simp +decide [chances, probability, stNoMatch, passPedra] <;> norm_num

/-- Claim C10 counterexample: evaluating the heuristic for seat 3
returns Python `None` (here `none`) — the call completes silently with
an undefined value instead of surfacing a defined error. -/
theorem eval_seat3_returns_none_cex : evalD stEval 3 = none := by decide

/-- Witness for the amended Claim C2 theorem at a concrete blocked
pass position. -/
theorem pass_nonempty_board_effects_w :
    (((passPedra, -1) : Move).1.valor.1 = -1 ∧ stPassBlocked.ponta1.isSome) ∧
    ((result stPassBlocked (passPedra, -1) 0).pedras = stPassBlocked.pedras ∧
     (result stPassBlocked (passPedra, -1) 0).pedras_restantes = stPassBlocked.pedras_restantes ∧
     (result stPassBlocked (passPedra, -1) 0).ponta1 = stPassBlocked.ponta1 ∧
     (result stPassBlocked (passPedra, -1) 0).ponta2 = stPassBlocked.ponta2 ∧
     (result stPassBlocked (passPedra, -1) 0).to_move = (stPassBlocked.to_move + 1) % 4 ∧
     (result stPassBlocked (passPedra, -1) 0).utility =
       (if stPassBlocked.pedras_restantes.any
             (fun p => igualO p stPassBlocked.ponta1 || igualO p stPassBlocked.ponta2) ∨
           stPassBlocked.pedras.any
             (fun p => igualO p stPassBlocked.ponta1 || igualO p stPassBlocked.ponta2) then 0
        else if stPassBlocked.to_move = 0 then 4 else -1)) :=
  ⟨⟨by decide, by decide⟩,
   pass_nonempty_board_effects stPassBlocked (passPedra, -1) 0 (by decide) (by decide)⟩

/-- Witness for the amended Claim C3 theorem at a concrete hand-
emptying placement. -/
theorem placement_utility_depletion_w :
    ((((⟨(3,5),-1⟩ : Pedra), 0) : Move).1.valor.1 ≠ -1 ∧
     (if stHand1.to_move = 0 then ∃ t ∈ stHand1.pedras, pedraEq t (⟨(3,5),-1⟩ : Pedra)
      else ∃ t ∈ stHand1.pedras_restantes, pedraEq t (⟨(3,5),-1⟩ : Pedra))) ∧
    (result stHand1 ((⟨(3,5),-1⟩ : Pedra), 0) 0).utility =
      (if stHand1.to_move = 0 then
        (if (result stHand1 ((⟨(3,5),-1⟩ : Pedra), 0) 0).pedras.length = 0 then 4 else 0)
       else
        (if (result stHand1 ((⟨(3,5),-1⟩ : Pedra), 0) 0).pedras_restantes.length = 2
         then -1 else 0)) :=
  ⟨⟨by decide, by decide⟩,
   placement_utility_depletion stHand1 ((⟨(3,5),-1⟩ : Pedra), 0) 0 (by decide) (by decide)⟩

/-- Witness for the Claim C5 theorem at a concrete opening move with
depth limit 1. -/
theorem chance_node_category_average_w :
    (terminal_test (result stOpen ((⟨(0,1),-1⟩ : Pedra), -1) 0) = false ∧ 0 < 1) ∧
    chance_node 1 0 stOpen ((⟨(0,1),-1⟩ : Pedra), -1) 0 =
      ((chances (result stOpen ((⟨(0,1),-1⟩ : Pedra), -1) 0)).map (fun c =>
        probability c *
          (if (outcome (result stOpen ((⟨(0,1),-1⟩ : Pedra), -1) 0) c).to_move = 0
           then max_value 1 0 (outcome (result stOpen ((⟨(0,1),-1⟩ : Pedra), -1) 0) c) (0 + 1)
           else min_value 1 0 (outcome (result stOpen ((⟨(0,1),-1⟩ : Pedra), -1) 0) c) (0 + 1)))).sum
      / ((chances (result stOpen ((⟨(0,1),-1⟩ : Pedra), -1) 0)).length : ℚ) :=
  ⟨⟨by decide, by decide⟩,
   chance_node_category_average 1 0 stOpen ((⟨(0,1),-1⟩ : Pedra), -1) 0 (by decide) (by decide)⟩

/-- Witness for the amended Claim C6 theorem at a concrete node with
one move cached per end. -/
theorem chance_probability_normalization_w :
    (stBothEnds.to_move ≠ 0 ∧ 0 < stBothEnds.pedras_restantes.length ∧
     (∀ m ∈ stBothEnds.moves, m.2 = 0 ∨ m.2 = 1)) ∧
    (((chances stBothEnds).map probability).sum = 1 ∧
     (∀ c ∈ chances stBothEnds, c.tag = -1 →
       probability c =
         1 - (((chances stBothEnds).filter (fun c2 => c2.tag != -1)).map probability).sum)) :=
  ⟨⟨by decide, by decide, by decide⟩,
   chance_probability_normalization stBothEnds (by decide) (by decide) (by decide)⟩

/-- Witness for the Claim C7 theorem: hand size 6 maps to depth 7,
and a max level past the cut returns the heuristic value. -/
theorem depth_policy_and_cutoff_w :
    ((6 = 6 ∨ 6 = 7) ∧ depthLimit 6 = 7) ∧
    (1 ≤ 5 ∧ max_value 1 0 stCut 5 = pyEval stCut 0) :=
  ⟨⟨by decide, (depth_policy_and_cutoff.1 6).1 (by decide)⟩,
   ⟨by decide, (depth_policy_and_cutoff.2.2.2.1 1 0 stCut 5 (by decide)).1⟩⟩

/-- Witness for the Claim C9 theorem at a concrete 7/21 deal built
from `cria_domino`. -/
theorem reach_tile_conservation_w :
    (stDeal.pedras.length = 7 ∧ stDeal.pedras_restantes.length = 21 ∧
     stDeal.ponta1 = none ∧ stDeal.ponta2 = none) ∧
    stDeal.pedras.length + stDeal.pedras_restantes.length + 0 = 28 :=
  ⟨⟨by decide, by decide, rfl, rfl⟩,
   reach_tile_conservation 0 stDeal 0 (Reach.init stDeal (by decide) (by decide) rfl rfl)⟩
